import Mathlib

/-!
Verification of the drone-simulator backend (server.ts).

The backend owns, per WebSocket client, one `SimulationState` advanced by a
100 ms interval timer (`updateDronePosition`), plus a registry mapping client
ids to their active simulation.  JavaScript numbers are idealized as real
numbers; the single place where IEEE special values influence control flow is
the ratio computation `Math.min(progress / segmentDistance, 1)` when
`segmentDistance = 0` (JS division by zero yields `±Infinity`, and `0/0`
yields `NaN`), so that computation is modelled exactly with the `JsNum` value
type below.  The `startTime` field of the source state is never read by any
code and is omitted.
-/

namespace DroneSim

/-- `interface Coordinate { lat: number; lng: number }`, for waypoints
(always finite numbers). -/
structure Coordinate where
  lat : ℝ
  lng : ℝ

/-- Result values of the JS arithmetic at the ratio/lerp sites: a finite
number, an infinity, or `NaN`. -/
inductive JsNum where
  | num (x : ℝ)
  | posInf
  | negInf
  | nan

/-- `Math.min(p / d, 1)` under JS semantics for finite `p`, `d`:
division by zero yields `+Infinity` for a positive dividend (which `Math.min`
caps to `1`), `-Infinity` for a negative dividend (which survives `Math.min`),
and `NaN` for `0 / 0` (which `Math.min` propagates). -/
noncomputable def jsMinDivOne (p d : ℝ) : JsNum :=
  if d = 0 then
    if 0 < p then .num 1
    else if p < 0 then .negInf
    else .nan
  else .num (min (p / d) 1)

/-- JS `c + diff * r` for finite `c`, `diff` and a possibly special `r`:
multiplying `0` by an infinity or anything by `NaN` yields `NaN`, and adding a
finite number to an infinity keeps the infinity. -/
noncomputable def lerpComponent (c diff : ℝ) (r : JsNum) : JsNum :=
  match r with
  | .num x => .num (c + diff * x)
  | .nan => .nan
  | .posInf => if diff = 0 then .nan else if 0 < diff then .posInf else .negInf
  | .negInf => if diff = 0 then .nan else if 0 < diff then .negInf else .posInf

/-- The JS `>=` comparison against `1`: `NaN` and `-Infinity` compare false. -/
def JsNum.geOne : JsNum → Prop
  | .num x => 1 ≤ x
  | .posInf => True
  | .negInf => False
  | .nan => False

/-- A stored drone position; its components come out of `lerpComponent`. -/
structure JsCoord where
  lat : JsNum
  lng : JsNum

/-- `calculateDistance`: Euclidean distance
`Math.sqrt(latDiff * latDiff + lngDiff * lngDiff)`. -/
noncomputable def calculateDistance (point1 point2 : Coordinate) : ℝ :=
  Real.sqrt ((point2.lat - point1.lat) * (point2.lat - point1.lat) +
    (point2.lng - point1.lng) * (point2.lng - point1.lng))

/-- `calculateTotalDistance`: sum of `calculateDistance` over consecutive
waypoint pairs (the source loop over `i` from `0` to `length - 2`). -/
noncomputable def calculateTotalDistance : List Coordinate → ℝ
  | point1 :: point2 :: rest =>
      calculateDistance point1 point2 + calculateTotalDistance (point2 :: rest)
  | _ => 0

/-- `interface SimulationState` from server.ts.  `totalDistance` is optional
in the source but assigned immediately after construction; `isComplete` is
optional and read as `isComplete || false`, so both are modelled as always
present (`isComplete` starting `false`).  `startTime` is never read and is
omitted. -/
structure SimulationState where
  waypoints : List Coordinate
  currentWaypointIndex : ℕ
  nextWaypointIndex : ℕ
  progress : ℝ
  speed : ℝ
  isPaused : Bool
  currentPosition : JsCoord
  totalDistance : ℝ
  isComplete : Bool

/-- The waypoint read `waypoints[i]` (in-bounds in every reachable state; the
default is never exercised under the `nextWaypointIndex < length` guard and
the index invariant). -/
def SimulationState.wp (state : SimulationState) (i : ℕ) : Coordinate :=
  state.waypoints.getD i ⟨0, 0⟩

/-- `segmentDistance` as computed inside `updateDronePosition`. -/
noncomputable def segDistOf (state : SimulationState) : ℝ :=
  calculateDistance (state.wp state.currentWaypointIndex)
    (state.wp state.nextWaypointIndex)

/-- `const step = (speed * 0.0001) / 10`. -/
noncomputable def stepOf (state : SimulationState) : ℝ :=
  (state.speed * 0.0001) / 10

/-- `const ratio = Math.min(state.progress / segmentDistance, 1)` evaluated
after `state.progress += step`. -/
noncomputable def ratioOf (state : SimulationState) : JsNum :=
  jsMinDivOne (state.progress + stepOf state) (segDistOf state)

/-- The new `state.currentPosition` computed by `updateDronePosition`. -/
noncomputable def newPositionOf (state : SimulationState) : JsCoord :=
  let current := state.wp state.currentWaypointIndex
  let next := state.wp state.nextWaypointIndex
  { lat := lerpComponent current.lat (next.lat - current.lat) (ratioOf state)
    lng := lerpComponent current.lng (next.lng - current.lng) (ratioOf state) }

open Classical in
/-- `updateDronePosition(state)`: if the route is exhausted, set
`isComplete`; otherwise accumulate `step` into `progress`, interpolate the
position at `ratio`, and advance the segment indices (resetting `progress`
to `0`) when `ratio >= 1`. -/
noncomputable def updateDronePosition (state : SimulationState) : SimulationState :=
  if state.waypoints.length ≤ state.nextWaypointIndex then
    { state with isComplete := true }
  else if (ratioOf state).geOne then
    { state with
        progress := 0
        currentPosition := newPositionOf state
        currentWaypointIndex := state.currentWaypointIndex + 1
        nextWaypointIndex := state.nextWaypointIndex + 1 }
  else
    { state with
        progress := state.progress + stepOf state
        currentPosition := newPositionOf state }

/-- One firing of the `setInterval` callback, state part: a no-op while
`isPaused`, otherwise `updateDronePosition`. -/
noncomputable def tick (state : SimulationState) : SimulationState :=
  if state.isPaused then state else updateDronePosition state

/-- The `POSITION_UPDATE` payload. -/
structure PositionUpdate where
  position : JsCoord
  progress : ℝ
  currentWaypoint : ℕ
  isComplete : Bool

/-- One firing of the `setInterval` callback, output part: nothing while
`isPaused`, otherwise the `POSITION_UPDATE` built from the updated state
(`isComplete: simulationState.isComplete || false`). -/
noncomputable def tickEmits (state : SimulationState) : Option PositionUpdate :=
  if state.isPaused then none
  else
    let s := updateDronePosition state
    some { position := s.currentPosition, progress := s.progress,
           currentWaypoint := s.currentWaypointIndex,
           isComplete := s.isComplete || false }

/-- The simulation state built by `handleStartSimulation` (lines 141-153):
`speed: speed || 1` defaults on `undefined` and on the falsy `0`. -/
noncomputable def initialSimulationState (waypoints : List Coordinate)
    (speed : Option ℝ) : SimulationState :=
  { waypoints := waypoints
    currentWaypointIndex := 0
    nextWaypointIndex := 1
    progress := 0
    speed := match speed with
      | none => 1
      | some v => if v = 0 then 1 else v
    isPaused := false
    currentPosition := { lat := .num (waypoints.getD 0 ⟨0, 0⟩).lat,
                         lng := .num (waypoints.getD 0 ⟨0, 0⟩).lng }
    totalDistance := calculateTotalDistance waypoints
    isComplete := false }

/-- A WebSocket client id (`ws.id`). -/
abbrev ClientId := String

/-- `activeSimulations`: the map from client id to its active simulation.
Each stored entry owns its armed interval timer, so an id is in the map
exactly when a clock is armed for it. -/
abbrev Registry := ClientId → Option SimulationState

/-- Payload of a `START_SIMULATION` message (both fields optional in the
loosely typed `WebSocketMessage`). -/
structure StartData where
  waypoints : Option (List Coordinate)
  speed : Option ℝ

/-- Messages the server sends to one client. -/
inductive OutMessage where
  | simulationStarted (initialPosition : Coordinate)
  | positionUpdate (u : PositionUpdate)
  | errorMsg (message : String)

/-- `handleStartSimulation`: reject fewer than two waypoints with an `ERROR`
before touching any state; otherwise clear any existing interval for this
client, overwrite its registry entry with a fresh state (arming a new clock),
and confirm with `SIMULATION_STARTED` carrying `waypoints[0]`. -/
noncomputable def handleStartSimulation (clientId : ClientId) (data : StartData)
    (reg : Registry) : Registry × List OutMessage :=
  match data.waypoints with
  | none => (reg, [.errorMsg "At least two waypoints are required"])
  | some waypoints =>
    if waypoints.length < 2 then
      (reg, [.errorMsg "At least two waypoints are required"])
    else
      (Function.update reg clientId
        (some (initialSimulationState waypoints data.speed)),
       [.simulationStarted (waypoints.getD 0 ⟨0, 0⟩)])

/-- `handlePauseSimulation`: set `isPaused` on the client's simulation if it
has one, otherwise do nothing. -/
def handlePauseSimulation (clientId : ClientId) (reg : Registry) : Registry :=
  match reg clientId with
  | some sim => Function.update reg clientId (some { sim with isPaused := true })
  | none => reg

/-- `handleResumeSimulation`: clear `isPaused` on the client's simulation if
it has one, otherwise do nothing. -/
def handleResumeSimulation (clientId : ClientId) (reg : Registry) : Registry :=
  match reg clientId with
  | some sim => Function.update reg clientId (some { sim with isPaused := false })
  | none => reg

/-- `handleStopSimulation`: clear the interval and delete the entry if the
client has one, otherwise do nothing. -/
def handleStopSimulation (clientId : ClientId) (reg : Registry) : Registry :=
  match reg clientId with
  | some _ => Function.update reg clientId none
  | none => reg

/-- `handleUpdateSpeed`: overwrite `speed` (no validation) if the client has
a simulation, otherwise do nothing. -/
def handleUpdateSpeed (clientId : ClientId) (speed : ℝ) (reg : Registry) :
    Registry :=
  match reg clientId with
  | some sim => Function.update reg clientId (some { sim with speed := speed })
  | none => reg

/-- The session states reachable through the server's operations: a fresh
state from a successful start, then interval ticks and the pause / resume /
speed-change mutations performed in place by the handlers. -/
inductive Reachable : SimulationState → Prop
  | start (waypoints : List Coordinate) (speed : Option ℝ)
      (h2 : 2 ≤ waypoints.length) :
      Reachable (initialSimulationState waypoints speed)
  | tick {s : SimulationState} : Reachable s → Reachable (DroneSim.tick s)
  | pause {s : SimulationState} : Reachable s →
      Reachable { s with isPaused := true }
  | resume {s : SimulationState} : Reachable s →
      Reachable { s with isPaused := false }
  | setSpeed {s : SimulationState} (v : ℝ) : Reachable s →
      Reachable { s with speed := v }

/-! Branch lemmas for `updateDronePosition`. -/

theorem updateDronePosition_of_done {s : SimulationState}
    (h : s.waypoints.length ≤ s.nextWaypointIndex) :
    updateDronePosition s = { s with isComplete := true } := by
  unfold updateDronePosition
  rw [if_pos h]

theorem updateDronePosition_of_cross {s : SimulationState}
    (h : s.nextWaypointIndex < s.waypoints.length)
    (hr : (ratioOf s).geOne) :
    updateDronePosition s =
      { s with
          progress := 0
          currentPosition := newPositionOf s
          currentWaypointIndex := s.currentWaypointIndex + 1
          nextWaypointIndex := s.nextWaypointIndex + 1 } := by
  unfold updateDronePosition
  rw [if_neg (not_le.mpr h), if_pos hr]

theorem updateDronePosition_of_mid {s : SimulationState}
    (h : s.nextWaypointIndex < s.waypoints.length)
    (hr : ¬ (ratioOf s).geOne) :
    updateDronePosition s =
      { s with
          progress := s.progress + stepOf s
          currentPosition := newPositionOf s } := by
  unfold updateDronePosition
  rw [if_neg (not_le.mpr h), if_neg hr]

theorem updateDronePosition_waypoints (s : SimulationState) :
    (updateDronePosition s).waypoints = s.waypoints := by
  unfold updateDronePosition
  split
  · rfl
  · split <;> rfl

theorem updateDronePosition_speed (s : SimulationState) :
    (updateDronePosition s).speed = s.speed := by
  unfold updateDronePosition
  split
  · rfl
  · split <;> rfl

theorem updateDronePosition_isPaused (s : SimulationState) :
    (updateDronePosition s).isPaused = s.isPaused := by
  unfold updateDronePosition
  split
  · rfl
  · split <;> rfl

theorem handleStartSimulation_none (clientId : ClientId) (speed : Option ℝ)
    (reg : Registry) :
    handleStartSimulation clientId ⟨none, speed⟩ reg =
      (reg, [.errorMsg "At least two waypoints are required"]) := rfl

theorem handleStartSimulation_some (clientId : ClientId)
    (waypoints : List Coordinate) (speed : Option ℝ) (reg : Registry) :
    handleStartSimulation clientId ⟨some waypoints, speed⟩ reg =
      if waypoints.length < 2 then
        (reg, [.errorMsg "At least two waypoints are required"])
      else
        (Function.update reg clientId
          (some (initialSimulationState waypoints speed)),
         [.simulationStarted (waypoints.getD 0 ⟨0, 0⟩)]) := rfl

/-- C2: for every waypoint list of length < 2 (including an absent list),
`handleStartSimulation` sends exactly an `ERROR` message and returns with the
registry — and hence every existing session and armed clock, in particular
one already running for this same connection — completely unchanged. -/
theorem c2_short_waypoints_rejected (clientId : ClientId) (data : StartData)
    (reg : Registry)
    (h : ∀ wps, data.waypoints = some wps → wps.length < 2) :
    handleStartSimulation clientId data reg =
      (reg, [.errorMsg "At least two waypoints are required"]) := by
  obtain ⟨wopt, sp⟩ := data
  cases wopt with
  | none => exact handleStartSimulation_none clientId sp reg
  | some wps =>
      rw [handleStartSimulation_some, if_pos (h wps rfl)]

/-- Witness for C2 at the concrete input: empty waypoint list, empty
registry. -/
theorem c2_short_waypoints_rejected_witness :
    handleStartSimulation "client" ⟨some [], none⟩ (fun _ => none) =
      ((fun _ => none : Registry),
       [.errorMsg "At least two waypoints are required"]) :=
  c2_short_waypoints_rejected "client" ⟨some [], none⟩ (fun _ => none)
    (fun wps hw => by
      simp only [Option.some.injEq] at hw
      subst hw
      decide)

/-- C7: for every waypoint list of length ≥ 2, `handleStartSimulation`
installs for this client the freshly initialized session with
`currentWaypointIndex = 0`, `nextWaypointIndex = 1`, `progress = 0`, the
given speed (or the default `1` when none is given), `isPaused = false`,
position `waypoints[0]`, not complete, and the retained total route
distance, and sends `SIMULATION_STARTED` carrying `waypoints[0]`. -/
theorem c7_start_success (clientId : ClientId) (waypoints : List Coordinate)
    (speed : Option ℝ) (reg : Registry) (h2 : 2 ≤ waypoints.length) :
    (handleStartSimulation clientId ⟨some waypoints, speed⟩ reg).1 clientId =
      some (initialSimulationState waypoints speed) ∧
    (initialSimulationState waypoints speed).currentWaypointIndex = 0 ∧
    (initialSimulationState waypoints speed).nextWaypointIndex = 1 ∧
    (initialSimulationState waypoints speed).progress = 0 ∧
    (∀ v, speed = some v → v ≠ 0 →
      (initialSimulationState waypoints speed).speed = v) ∧
    (speed = none → (initialSimulationState waypoints speed).speed = 1) ∧
    (initialSimulationState waypoints speed).isPaused = false ∧
    (initialSimulationState waypoints speed).currentPosition =
      ⟨.num (waypoints.getD 0 ⟨0, 0⟩).lat,
       .num (waypoints.getD 0 ⟨0, 0⟩).lng⟩ ∧
    (initialSimulationState waypoints speed).isComplete = false ∧
    (initialSimulationState waypoints speed).totalDistance =
      calculateTotalDistance waypoints ∧
    (handleStartSimulation clientId ⟨some waypoints, speed⟩ reg).2 =
      [.simulationStarted (waypoints.getD 0 ⟨0, 0⟩)] := by
  have hreg : handleStartSimulation clientId ⟨some waypoints, speed⟩ reg =
      (Function.update reg clientId
        (some (initialSimulationState waypoints speed)),
       [.simulationStarted (waypoints.getD 0 ⟨0, 0⟩)]) := by
    rw [handleStartSimulation_some, if_neg (not_lt.mpr h2)]
  refine ⟨by rw [hreg]; exact Function.update_same clientId _ reg,
    rfl, rfl, rfl, ?_, ?_, rfl, rfl, rfl, rfl, by rw [hreg]⟩
  · intro v hv hv0
    subst hv
    simp [initialSimulationState, hv0]
  · intro hv
    subst hv
    rfl

/-- Witness for C7 at the concrete input: two waypoints, explicit speed 1,
empty registry. -/
theorem c7_start_success_witness :
    (handleStartSimulation "client" ⟨some [⟨0, 0⟩, ⟨0, 1⟩], some 1⟩
        (fun _ => none)).1 "client" =
      some (initialSimulationState [⟨0, 0⟩, ⟨0, 1⟩] (some 1)) ∧
    (initialSimulationState [⟨0, 0⟩, ⟨0, 1⟩] (some 1)).currentWaypointIndex = 0 ∧
    (initialSimulationState [⟨0, 0⟩, ⟨0, 1⟩] (some 1)).nextWaypointIndex = 1 ∧
    (initialSimulationState [⟨0, 0⟩, ⟨0, 1⟩] (some 1)).progress = 0 ∧
    (∀ v, (some (1 : ℝ)) = some v → v ≠ 0 →
      (initialSimulationState [⟨0, 0⟩, ⟨0, 1⟩] (some 1)).speed = v) ∧
    ((some (1 : ℝ)) = none →
      (initialSimulationState [⟨0, 0⟩, ⟨0, 1⟩] (some 1)).speed = 1) ∧
    (initialSimulationState [⟨0, 0⟩, ⟨0, 1⟩] (some 1)).isPaused = false ∧
    (initialSimulationState [⟨0, 0⟩, ⟨0, 1⟩] (some 1)).currentPosition =
      ⟨.num (([⟨0, 0⟩, ⟨0, 1⟩] : List Coordinate).getD 0 ⟨0, 0⟩).lat,
       .num (([⟨0, 0⟩, ⟨0, 1⟩] : List Coordinate).getD 0 ⟨0, 0⟩).lng⟩ ∧
    (initialSimulationState [⟨0, 0⟩, ⟨0, 1⟩] (some 1)).isComplete = false ∧
    (initialSimulationState [⟨0, 0⟩, ⟨0, 1⟩] (some 1)).totalDistance =
      calculateTotalDistance [⟨0, 0⟩, ⟨0, 1⟩] ∧
    (handleStartSimulation "client" ⟨some [⟨0, 0⟩, ⟨0, 1⟩], some 1⟩
        (fun _ => none)).2 =
      [.simulationStarted (([⟨0, 0⟩, ⟨0, 1⟩] : List Coordinate).getD 0 ⟨0, 0⟩)] :=
  c7_start_success "client" [⟨0, 0⟩, ⟨0, 1⟩] (some 1) (fun _ => none)
    (by decide)

/-- C8: `handlePauseSimulation` and `handleStopSimulation` are idempotent on
every registry state — pausing twice, or stopping twice (including a stop on
an already-removed session), yields the same registry as doing it once.
Neither handler emits any message, so the registry is the whole observable
state. -/
theorem c8_pause_stop_idempotent (clientId : ClientId) (reg : Registry) :
    handlePauseSimulation clientId (handlePauseSimulation clientId reg) =
      handlePauseSimulation clientId reg ∧
    handleStopSimulation clientId (handleStopSimulation clientId reg) =
      handleStopSimulation clientId reg := by
  constructor
  · unfold handlePauseSimulation
    cases h : reg clientId with
    | none => simp [h]
    | some sim =>
      simp only [h, Function.update_same]
      rw [Function.update_idem]
  · unfold handleStopSimulation
    cases h : reg clientId with
    | none => simp [h]
    | some sim => simp [h, Function.update_same]

theorem tick_of_paused {s : SimulationState} (h : s.isPaused = true) :
    tick s = s := by
  unfold tick
  rw [if_pos h]

theorem tickEmits_of_paused {s : SimulationState} (h : s.isPaused = true) :
    tickEmits s = none := by
  unfold tickEmits
  rw [if_pos h]

theorem unpause_of_unpaused {s : SimulationState} (h : s.isPaused = false) :
    { s with isPaused := false } = s := by
  cases s
  simp_all

/-- C6: pausing an unpaused session freezes it — any number of clock ticks
afterwards leave every session field (in particular `currentPosition`,
`progress` and `currentWaypointIndex`) unchanged and emit nothing — and
resuming restores exactly the pre-pause state, from which any further ticks
proceed exactly as they would have without the pause/resume pair. -/
theorem c6_pause_freezes_resume_continues (s : SimulationState)
    (h : s.isPaused = false) (n m : ℕ) :
    tick^[n] { s with isPaused := true } = { s with isPaused := true } ∧
    tickEmits (tick^[n] { s with isPaused := true }) = none ∧
    { tick^[n] { s with isPaused := true } with isPaused := false } = s ∧
    tick^[m] { tick^[n] { s with isPaused := true } with isPaused := false } =
      tick^[m] s := by
  have hfix : tick^[n] { s with isPaused := true } =
      { s with isPaused := true } :=
    Function.iterate_fixed (tick_of_paused rfl) n
  have hres : { tick^[n] { s with isPaused := true } with isPaused := false } =
      s := by
    rw [hfix]
    exact unpause_of_unpaused h
  exact ⟨hfix, by rw [hfix]; exact tickEmits_of_paused rfl, hres, by rw [hres]⟩

/-- Witness for C6: a freshly started two-waypoint session, three paused
ticks, two ticks after the resume. -/
theorem c6_pause_freezes_resume_continues_witness :
    tick^[3] { initialSimulationState [⟨0, 0⟩, ⟨0, 1⟩] (some 1) with
        isPaused := true } =
      { initialSimulationState [⟨0, 0⟩, ⟨0, 1⟩] (some 1) with
        isPaused := true } ∧
    tickEmits (tick^[3] { initialSimulationState [⟨0, 0⟩, ⟨0, 1⟩] (some 1) with
        isPaused := true }) = none ∧
    { tick^[3] { initialSimulationState [⟨0, 0⟩, ⟨0, 1⟩] (some 1) with
        isPaused := true } with isPaused := false } =
      initialSimulationState [⟨0, 0⟩, ⟨0, 1⟩] (some 1) ∧
    tick^[2] { tick^[3] { initialSimulationState [⟨0, 0⟩, ⟨0, 1⟩] (some 1) with
        isPaused := true } with isPaused := false } =
      tick^[2] (initialSimulationState [⟨0, 0⟩, ⟨0, 1⟩] (some 1)) :=
  c6_pause_freezes_resume_continues
    (initialSimulationState [⟨0, 0⟩, ⟨0, 1⟩] (some 1)) rfl 3 2

theorem reachable_index_invariant {s : SimulationState} (hs : Reachable s) :
    s.nextWaypointIndex = s.currentWaypointIndex + 1 := by
  induction hs with
  | start waypoints speed h2 => rfl
  | tick h ih =>
      unfold tick
      split
      · exact ih
      · unfold updateDronePosition
        split
        · exact ih
        · split
          · simp only
            omega
          · exact ih
  | pause h ih => exact ih
  | resume h ih => exact ih
  | setSpeed v h ih => exact ih

/-- C3: in every reachable session state the segment-index invariant
`nextWaypointIndex = currentWaypointIndex + 1` holds; a fresh start sets the
indices to `0` and `1`; and an advance that completes a segment
(`ratio >= 1`) increments both indices by exactly one and resets `progress`
to `0` (the overshoot is dropped, not carried into the next segment). -/
theorem c3_segment_index_invariant (s : SimulationState) (hs : Reachable s) :
    s.nextWaypointIndex = s.currentWaypointIndex + 1 ∧
    (∀ (waypoints : List Coordinate) (speed : Option ℝ),
      (initialSimulationState waypoints speed).currentWaypointIndex = 0 ∧
      (initialSimulationState waypoints speed).nextWaypointIndex = 1) ∧
    (s.nextWaypointIndex < s.waypoints.length → (ratioOf s).geOne →
      (updateDronePosition s).currentWaypointIndex =
        s.currentWaypointIndex + 1 ∧
      (updateDronePosition s).nextWaypointIndex = s.nextWaypointIndex + 1 ∧
      (updateDronePosition s).progress = 0) := by
  refine ⟨reachable_index_invariant hs, fun _ _ => ⟨rfl, rfl⟩, ?_⟩
  intro hlt hr
  rw [updateDronePosition_of_cross hlt hr]
  exact ⟨rfl, rfl, rfl⟩

/-- Witness for C3 at the concrete reachable state given by a fresh
two-waypoint start. -/
theorem c3_segment_index_invariant_witness :
    (initialSimulationState [⟨0, 0⟩, ⟨0, 1⟩] (some 1)).nextWaypointIndex =
      (initialSimulationState [⟨0, 0⟩, ⟨0, 1⟩] (some 1)).currentWaypointIndex
        + 1 ∧
    (∀ (waypoints : List Coordinate) (speed : Option ℝ),
      (initialSimulationState waypoints speed).currentWaypointIndex = 0 ∧
      (initialSimulationState waypoints speed).nextWaypointIndex = 1) ∧
    ((initialSimulationState [⟨0, 0⟩, ⟨0, 1⟩] (some 1)).nextWaypointIndex <
        (initialSimulationState [⟨0, 0⟩, ⟨0, 1⟩] (some 1)).waypoints.length →
      (ratioOf (initialSimulationState [⟨0, 0⟩, ⟨0, 1⟩] (some 1))).geOne →
      (updateDronePosition
          (initialSimulationState [⟨0, 0⟩, ⟨0, 1⟩] (some 1))).currentWaypointIndex =
        (initialSimulationState [⟨0, 0⟩, ⟨0, 1⟩] (some 1)).currentWaypointIndex
          + 1 ∧
      (updateDronePosition
          (initialSimulationState [⟨0, 0⟩, ⟨0, 1⟩] (some 1))).nextWaypointIndex =
        (initialSimulationState [⟨0, 0⟩, ⟨0, 1⟩] (some 1)).nextWaypointIndex
          + 1 ∧
      (updateDronePosition
          (initialSimulationState [⟨0, 0⟩, ⟨0, 1⟩] (some 1))).progress = 0) :=
  c3_segment_index_invariant (initialSimulationState [⟨0, 0⟩, ⟨0, 1⟩] (some 1))
    (Reachable.start [⟨0, 0⟩, ⟨0, 1⟩] (some 1) (by decide))

/-- C1: on the session freshly started with waypoints `[{0,0}, {0,1}]` and
speed `1` (running, unpaused), one clock tick computes
`step = (1 * 0.0001) / 10 = 0.00001`, leaves `progress = 0.00001`,
`ratio = 0.00001`, position `{lat: 0, lng: 0.00001}`, and the simulation not
complete. -/
theorem c1_first_tick_scenario :
    stepOf (initialSimulationState [⟨0, 0⟩, ⟨0, 1⟩] (some 1)) =
      (1 * 0.0001) / 10 ∧
    stepOf (initialSimulationState [⟨0, 0⟩, ⟨0, 1⟩] (some 1)) = 0.00001 ∧
    ratioOf (initialSimulationState [⟨0, 0⟩, ⟨0, 1⟩] (some 1)) =
      .num 0.00001 ∧
    (tick (initialSimulationState [⟨0, 0⟩, ⟨0, 1⟩] (some 1))).progress =
      0.00001 ∧
    (tick (initialSimulationState [⟨0, 0⟩, ⟨0, 1⟩] (some 1))).currentPosition =
      ⟨.num 0, .num 0.00001⟩ ∧
    (tick (initialSimulationState [⟨0, 0⟩, ⟨0, 1⟩] (some 1))).isComplete =
      false := by
  set s0 := initialSimulationState [⟨0, 0⟩, ⟨0, 1⟩] (some 1) with hs0
  have hspeed : s0.speed = 1 := by
    rw [hs0]
    simp [initialSimulationState]
  have hprog : s0.progress = 0 := rfl
  have hstep0 : stepOf s0 = (1 * 0.0001) / 10 := by
    unfold stepOf
    rw [hspeed]
  have hstep : stepOf s0 = 0.00001 := by
    rw [hstep0]
    norm_num
  have hseg : segDistOf s0 = 1 := by
    unfold segDistOf
    show calculateDistance ⟨0, 0⟩ ⟨0, 1⟩ = 1
    unfold calculateDistance
    norm_num
  have hratio : ratioOf s0 = .num 0.00001 := by
    unfold ratioOf
    rw [hprog, hstep, hseg]
    unfold jsMinDivOne
    rw [if_neg one_ne_zero, div_one]
    rw [min_eq_left (by norm_num)]
    norm_num
  have hnr : ¬ (ratioOf s0).geOne := by
    rw [hratio]
    show ¬ (1 : ℝ) ≤ 0.00001
    norm_num
  have htick : tick s0 = updateDronePosition s0 := by
    unfold tick
    rw [if_neg (by rw [show s0.isPaused = false from rfl]; simp)]
  have hupd : updateDronePosition s0 =
      { s0 with
          progress := s0.progress + stepOf s0
          currentPosition := newPositionOf s0 } :=
    updateDronePosition_of_mid (by decide) hnr
  refine ⟨hstep0, hstep, hratio, ?_, ?_, ?_⟩
  · rw [htick, hupd]
    show s0.progress + stepOf s0 = 0.00001
    rw [hprog, hstep]
    norm_num
  · rw [htick, hupd]
    show newPositionOf s0 = _
    unfold newPositionOf
    rw [hratio]
    show JsCoord.mk (lerpComponent 0 (0 - 0) (.num 0.00001))
      (lerpComponent 0 (1 - 0) (.num 0.00001)) = _
    unfold lerpComponent
    simp only [JsCoord.mk.injEq, JsNum.num.injEq]
    constructor <;> norm_num
  · rw [htick, hupd]
    rfl

theorem segDistOf_nonneg (t : SimulationState) : 0 ≤ segDistOf t :=
  Real.sqrt_nonneg _

theorem segDistOf_congr {s t : SimulationState} (hw : t.waypoints = s.waypoints)
    (hc : t.currentWaypointIndex = s.currentWaypointIndex)
    (hn : t.nextWaypointIndex = s.nextWaypointIndex) :
    segDistOf t = segDistOf s := by
  unfold segDistOf SimulationState.wp
  rw [hw, hc, hn]

theorem stepOf_of_speed_zero {t : SimulationState} (h : t.speed = 0) :
    stepOf t = 0 := by
  unfold stepOf
  rw [h]
  norm_num

/-- A segment tick does not cross when either the accumulated progress is
still short of a positive segment distance, or the segment distance is zero
and the accumulated progress non-positive (JS then computes `-Infinity` or
`NaN`, neither of which satisfies `ratio >= 1`). -/
theorem not_geOne_of_stall {p d : ℝ} (hd : 0 ≤ d)
    (h : p < d ∨ (d = 0 ∧ p ≤ 0)) :
    ¬ (jsMinDivOne p d).geOne := by
  unfold jsMinDivOne
  rcases h with h | ⟨hd0, hp⟩
  · by_cases hz : d = 0
    · subst hz
      rw [if_pos rfl, if_neg (not_lt.mpr h.le), if_pos h]
      exact fun hf => hf
    · rw [if_neg hz]
      have hdpos : 0 < d := lt_of_le_of_ne hd (Ne.symm hz)
      show ¬ (1 ≤ min (p / d) 1)
      rw [le_min_iff]
      rintro ⟨h1, -⟩
      have hdp : 1 * d ≤ p := (le_div_iff₀ hdpos).mp h1
      rw [one_mul] at hdp
      exact absurd h (not_lt.mpr hdp)
  · subst hd0
    rw [if_pos rfl, if_neg (not_lt.mpr hp)]
    by_cases hneg : p < 0
    · rw [if_pos hneg]
      exact fun hf => hf
    · rw [if_neg hneg]
      exact fun hf => hf

/-- With speed zero a non-crossing tick only recomputes the position. -/
theorem updateDronePosition_stall {t : SimulationState}
    (hlt : t.nextWaypointIndex < t.waypoints.length)
    (hsp : t.speed = 0)
    (h : t.progress < segDistOf t ∨ (segDistOf t = 0 ∧ t.progress ≤ 0)) :
    updateDronePosition t = { t with currentPosition := newPositionOf t } := by
  have hstep : stepOf t = 0 := stepOf_of_speed_zero hsp
  have hnr : ¬ (ratioOf t).geOne := by
    unfold ratioOf
    rw [hstep, add_zero]
    exact not_geOne_of_stall (segDistOf_nonneg t) h
  rw [updateDronePosition_of_mid hlt hnr, hstep, add_zero]

/-- C4 counterexample: on the reachable session started with waypoints
`[{0,0}, {0,0}, {0,1}]` (whose first segment has distance `0`) and then set
to speed `0`, an advance on the non-terminal zero-distance segment computes
`ratio = NaN` (the JS `0 / 0`), not `1`, and the indices do not advance —
the position even degrades to `{NaN, NaN}`. -/
theorem c4_zero_segment_counterexample :
    ({ initialSimulationState [⟨0, 0⟩, ⟨0, 0⟩, ⟨0, 1⟩] (some 1) with
        speed := 0 } : SimulationState).nextWaypointIndex <
      ({ initialSimulationState [⟨0, 0⟩, ⟨0, 0⟩, ⟨0, 1⟩] (some 1) with
        speed := 0 } : SimulationState).waypoints.length ∧
    segDistOf { initialSimulationState [⟨0, 0⟩, ⟨0, 0⟩, ⟨0, 1⟩] (some 1) with
        speed := 0 } = 0 ∧
    ratioOf { initialSimulationState [⟨0, 0⟩, ⟨0, 0⟩, ⟨0, 1⟩] (some 1) with
        speed := 0 } = .nan ∧
    (updateDronePosition
        { initialSimulationState [⟨0, 0⟩, ⟨0, 0⟩, ⟨0, 1⟩] (some 1) with
          speed := 0 }).currentWaypointIndex = 0 ∧
    (updateDronePosition
        { initialSimulationState [⟨0, 0⟩, ⟨0, 0⟩, ⟨0, 1⟩] (some 1) with
          speed := 0 }).nextWaypointIndex = 1 ∧
    (updateDronePosition
        { initialSimulationState [⟨0, 0⟩, ⟨0, 0⟩, ⟨0, 1⟩] (some 1) with
          speed := 0 }).currentPosition = ⟨.nan, .nan⟩ := by
  set t : SimulationState :=
    { initialSimulationState [⟨0, 0⟩, ⟨0, 0⟩, ⟨0, 1⟩] (some 1) with
      speed := 0 } with ht
  have hlt : t.nextWaypointIndex < t.waypoints.length := by decide
  have hstep : stepOf t = 0 := stepOf_of_speed_zero rfl
  have hprog : t.progress = 0 := rfl
  have hseg : segDistOf t = 0 := by
    unfold segDistOf
    show calculateDistance ⟨0, 0⟩ ⟨0, 0⟩ = 0
    unfold calculateDistance
    norm_num
  have hratio : ratioOf t = .nan := by
    unfold ratioOf
    rw [hprog, hstep, hseg, add_zero]
    unfold jsMinDivOne
    rw [if_pos rfl, if_neg (lt_irrefl 0), if_neg (lt_irrefl 0)]
  have hnr : ¬ (ratioOf t).geOne := by
    rw [hratio]
    exact fun hf => hf
  have hupd : updateDronePosition t =
      { t with
          progress := t.progress + stepOf t
          currentPosition := newPositionOf t } :=
    updateDronePosition_of_mid hlt hnr
  refine ⟨hlt, hseg, hratio, by rw [hupd]; rfl, by rw [hupd]; rfl, ?_⟩
  rw [hupd]
  show newPositionOf t = _
  unfold newPositionOf
  rw [hratio]
  rfl

/-- C4 (amended): on a non-terminal segment of distance `0`, an advance whose
post-step accumulated progress is positive (always the case when the speed is
positive and progress non-negative) computes `ratio = 1` — the JS division by
zero yields `+Infinity`, capped to `1` by `Math.min`, with no failure — and
the segment is treated as traversed that same tick, both indices advancing.
(With non-positive post-step progress, e.g. after `setSpeed(0)` at the start
of such a segment, the division instead yields `NaN` or `-Infinity` and the
segment is not traversed.) -/
theorem c4_zero_segment_amended (s : SimulationState)
    (hlt : s.nextWaypointIndex < s.waypoints.length)
    (hd : segDistOf s = 0)
    (hp : 0 < s.progress + stepOf s) :
    ratioOf s = .num 1 ∧
    (updateDronePosition s).currentWaypointIndex =
      s.currentWaypointIndex + 1 ∧
    (updateDronePosition s).nextWaypointIndex = s.nextWaypointIndex + 1 := by
  have hr : ratioOf s = .num 1 := by
    unfold ratioOf
    rw [hd]
    unfold jsMinDivOne
    rw [if_pos rfl, if_pos hp]
  have hge : (ratioOf s).geOne := by
    rw [hr]
    show (1 : ℝ) ≤ 1
    exact le_refl 1
  rw [updateDronePosition_of_cross hlt hge]
  exact ⟨hr, rfl, rfl⟩

/-- Witness for the amended C4 at the concrete reachable state started with
waypoints `[{0,0}, {0,0}, {0,1}]` and speed `1`. -/
theorem c4_zero_segment_amended_witness :
    ratioOf (initialSimulationState [⟨0, 0⟩, ⟨0, 0⟩, ⟨0, 1⟩] (some 1)) =
      .num 1 ∧
    (updateDronePosition
        (initialSimulationState [⟨0, 0⟩, ⟨0, 0⟩, ⟨0, 1⟩]
          (some 1))).currentWaypointIndex =
      (initialSimulationState [⟨0, 0⟩, ⟨0, 0⟩, ⟨0, 1⟩]
        (some 1)).currentWaypointIndex + 1 ∧
    (updateDronePosition
        (initialSimulationState [⟨0, 0⟩, ⟨0, 0⟩, ⟨0, 1⟩]
          (some 1))).nextWaypointIndex =
      (initialSimulationState [⟨0, 0⟩, ⟨0, 0⟩, ⟨0, 1⟩]
        (some 1)).nextWaypointIndex + 1 :=
  c4_zero_segment_amended (initialSimulationState [⟨0, 0⟩, ⟨0, 0⟩, ⟨0, 1⟩]
      (some 1))
    (by decide)
    (by
      unfold segDistOf
      show calculateDistance ⟨0, 0⟩ ⟨0, 0⟩ = 0
      unfold calculateDistance
      norm_num)
    (by
      show (0 : ℝ) <
        (initialSimulationState [⟨0, 0⟩, ⟨0, 0⟩, ⟨0, 1⟩] (some 1)).progress +
          stepOf (initialSimulationState [⟨0, 0⟩, ⟨0, 0⟩, ⟨0, 1⟩] (some 1))
      unfold stepOf
      simp [initialSimulationState]
      norm_num)

/-- C9: after `handleUpdateSpeed` sets speed `0` on a running mid-segment
session, the session installed for the client is that state with speed `0`,
and every number of subsequent advances leaves `progress` exactly equal (in
particular non-increasing, the step being `0`) and never sets
`isComplete`. -/
theorem c9_zero_speed_stalls (clientId : ClientId) (reg : Registry)
    (s : SimulationState) (n : ℕ)
    (hreg : reg clientId = some s)
    (hrun : s.isComplete = false)
    (hmid : s.nextWaypointIndex < s.waypoints.length)
    (hseg : s.progress < segDistOf s ∨
      (segDistOf s = 0 ∧ s.progress ≤ 0)) :
    handleUpdateSpeed clientId 0 reg clientId = some { s with speed := 0 } ∧
    (updateDronePosition^[n] { s with speed := 0 }).progress = s.progress ∧
    (updateDronePosition^[n] { s with speed := 0 }).isComplete = false := by
  have hinstall : handleUpdateSpeed clientId 0 reg clientId =
      some { s with speed := 0 } := by
    unfold handleUpdateSpeed
    rw [hreg]
    exact Function.update_same clientId _ reg
  have key : ∀ m : ℕ,
      (updateDronePosition^[m] { s with speed := 0 }).waypoints =
        s.waypoints ∧
      (updateDronePosition^[m] { s with speed := 0 }).currentWaypointIndex =
        s.currentWaypointIndex ∧
      (updateDronePosition^[m] { s with speed := 0 }).nextWaypointIndex =
        s.nextWaypointIndex ∧
      (updateDronePosition^[m] { s with speed := 0 }).progress = s.progress ∧
      (updateDronePosition^[m] { s with speed := 0 }).speed = 0 ∧
      (updateDronePosition^[m] { s with speed := 0 }).isComplete = false := by
    intro m
    induction m with
    | zero => exact ⟨rfl, rfl, rfl, rfl, rfl, hrun⟩
    | succ m ih =>
        obtain ⟨hw, hc, hn, hp, hsp, hic⟩ := ih
        rw [Function.iterate_succ_apply']
        set t := updateDronePosition^[m] { s with speed := 0 } with htdef
        have hd : segDistOf t = segDistOf s := segDistOf_congr hw hc hn
        have hupd : updateDronePosition t =
            { t with currentPosition := newPositionOf t } :=
          updateDronePosition_stall (by rw [hn, hw]; exact hmid) hsp
            (by rw [hd, hp]; exact hseg)
        rw [hupd]
        exact ⟨hw, hc, hn, hp, hsp, hic⟩
  exact ⟨hinstall, (key n).2.2.2.1, (key n).2.2.2.2.2⟩

/-- Witness for C9: a freshly started two-waypoint session at speed `1`,
speed then set to `0`, five subsequent advances. -/
theorem c9_zero_speed_stalls_witness :
    handleUpdateSpeed "client" 0
        (fun c => if c = "client" then
          some (initialSimulationState [⟨0, 0⟩, ⟨0, 1⟩] (some 1)) else none)
        "client" =
      some { initialSimulationState [⟨0, 0⟩, ⟨0, 1⟩] (some 1) with
             speed := 0 } ∧
    (updateDronePosition^[5]
        { initialSimulationState [⟨0, 0⟩, ⟨0, 1⟩] (some 1) with
          speed := 0 }).progress =
      (initialSimulationState [⟨0, 0⟩, ⟨0, 1⟩] (some 1)).progress ∧
    (updateDronePosition^[5]
        { initialSimulationState [⟨0, 0⟩, ⟨0, 1⟩] (some 1) with
          speed := 0 }).isComplete = false :=
  c9_zero_speed_stalls "client"
    (fun c => if c = "client" then
      some (initialSimulationState [⟨0, 0⟩, ⟨0, 1⟩] (some 1)) else none)
    (initialSimulationState [⟨0, 0⟩, ⟨0, 1⟩] (some 1)) 5
    (if_pos rfl) rfl (by decide)
    (Or.inl (by
      unfold segDistOf
      show (0 : ℝ) < calculateDistance ⟨0, 0⟩ ⟨0, 1⟩
      unfold calculateDistance
      norm_num))

/-- A crossing ratio is exactly `1`: `Math.min(_, 1)` never exceeds `1`, and
the special values that survive it (`-Infinity`, `NaN`) fail `>= 1`. -/
theorem ratioOf_eq_one_of_geOne {s : SimulationState}
    (h : (ratioOf s).geOne) : ratioOf s = .num 1 := by
  unfold ratioOf jsMinDivOne at h ⊢
  by_cases hz : segDistOf s = 0
  · rw [if_pos hz] at h ⊢
    by_cases hp : 0 < s.progress + stepOf s
    · rw [if_pos hp]
    · rw [if_neg hp] at h ⊢
      by_cases hneg : s.progress + stepOf s < 0
      · rw [if_pos hneg] at h
        exact absurd h (fun hf => hf)
      · rw [if_neg hneg] at h
        exact absurd h (fun hf => hf)
  · rw [if_neg hz] at h ⊢
    have h1 : (1 : ℝ) ≤ min ((s.progress + stepOf s) / segDistOf s) 1 := h
    congr 1
    exact le_antisymm (min_le_right _ _) h1

/-- On a crossing tick the interpolated position is exactly the next
waypoint. -/
theorem newPositionOf_of_geOne {s : SimulationState}
    (h : (ratioOf s).geOne) :
    newPositionOf s = ⟨.num (s.wp s.nextWaypointIndex).lat,
                       .num (s.wp s.nextWaypointIndex).lng⟩ := by
  simp only [newPositionOf]
  rw [ratioOf_eq_one_of_geOne h]
  simp only [lerpComponent, JsCoord.mk.injEq, JsNum.num.injEq]
  constructor <;> ring

/-- C10: on the tick after the final segment is crossed — the first advance
with `nextWaypointIndex` at the waypoint-list length — the emitted
`POSITION_UPDATE` carries `isComplete = true`, the final waypoint as
position, `progress = 0`, and `currentWaypoint = length - 1`, and that
advance changes nothing in the session state except setting the complete
flag. -/
theorem c10_completion_tick (s : SimulationState)
    (hinv : s.nextWaypointIndex = s.currentWaypointIndex + 1)
    (hlt : s.nextWaypointIndex < s.waypoints.length)
    (hpause : s.isPaused = false)
    (hcross : (updateDronePosition s).nextWaypointIndex =
      s.waypoints.length) :
    tickEmits (updateDronePosition s) =
      some { position := ⟨.num (s.wp (s.waypoints.length - 1)).lat,
                         .num (s.wp (s.waypoints.length - 1)).lng⟩,
             progress := 0,
             currentWaypoint := s.waypoints.length - 1,
             isComplete := true } ∧
    updateDronePosition (updateDronePosition s) =
      { updateDronePosition s with isComplete := true } := by
  have hge : (ratioOf s).geOne := by
    by_contra hnr
    rw [updateDronePosition_of_mid hlt hnr] at hcross
    exact absurd hcross (Nat.ne_of_lt hlt)
  have hupd := updateDronePosition_of_cross hlt hge
  have hlen : s.nextWaypointIndex + 1 = s.waypoints.length := by
    rw [hupd] at hcross
    exact hcross
  have hdone : (updateDronePosition s).waypoints.length ≤
      (updateDronePosition s).nextWaypointIndex := by
    rw [hupd]
    show s.waypoints.length ≤ s.nextWaypointIndex + 1
    omega
  have hfin := updateDronePosition_of_done hdone
  refine ⟨?_, hfin⟩
  have hnp : (updateDronePosition s).isPaused = true ↔ False := by
    rw [updateDronePosition_isPaused, hpause]
    simp
  unfold tickEmits
  rw [if_neg hnp.mp]
  rw [hfin, hupd]
  simp only [Option.some.injEq, PositionUpdate.mk.injEq, Bool.or_false]
  refine ⟨?_, trivial, ?_, trivial⟩
  · show newPositionOf s = _
    rw [newPositionOf_of_geOne hge]
    have : s.nextWaypointIndex = s.waypoints.length - 1 := by omega
    rw [this]
  · show s.currentWaypointIndex + 1 = s.waypoints.length - 1
    omega

/-- Witness for C10: the two-waypoint session with accumulated progress `1`,
whose next tick crosses the final segment, followed by the completion
tick. -/
theorem c10_completion_tick_witness :
    tickEmits (updateDronePosition
        ({ initialSimulationState [⟨0, 0⟩, ⟨0, 1⟩] (some 1) with
           progress := 1 } : SimulationState)) =
      some { position :=
               ⟨.num (({ initialSimulationState [⟨0, 0⟩, ⟨0, 1⟩] (some 1) with
                   progress := 1 } : SimulationState).wp
                   (({ initialSimulationState [⟨0, 0⟩, ⟨0, 1⟩] (some 1) with
                     progress := 1 } : SimulationState).waypoints.length - 1)).lat,
                .num (({ initialSimulationState [⟨0, 0⟩, ⟨0, 1⟩] (some 1) with
                   progress := 1 } : SimulationState).wp
                   (({ initialSimulationState [⟨0, 0⟩, ⟨0, 1⟩] (some 1) with
                     progress := 1 } : SimulationState).waypoints.length - 1)).lng⟩,
             progress := 0,
             currentWaypoint :=
               ({ initialSimulationState [⟨0, 0⟩, ⟨0, 1⟩] (some 1) with
                 progress := 1 } : SimulationState).waypoints.length - 1,
             isComplete := true } ∧
    updateDronePosition (updateDronePosition
        ({ initialSimulationState [⟨0, 0⟩, ⟨0, 1⟩] (some 1) with
           progress := 1 } : SimulationState)) =
      { updateDronePosition
          ({ initialSimulationState [⟨0, 0⟩, ⟨0, 1⟩] (some 1) with
             progress := 1 } : SimulationState) with isComplete := true } := by
  set sC : SimulationState :=
    { initialSimulationState [⟨0, 0⟩, ⟨0, 1⟩] (some 1) with progress := 1 }
    with hsC
  have hspeed : sC.speed = 1 := by
    show (if (1 : ℝ) = 0 then 1 else 1) = 1
    exact ite_self 1
  have hstep : stepOf sC = 0.00001 := by
    unfold stepOf
    rw [hspeed]
    norm_num
  have hseg : segDistOf sC = 1 := by
    unfold segDistOf
    show calculateDistance ⟨0, 0⟩ ⟨0, 1⟩ = 1
    unfold calculateDistance
    norm_num
  have hprog : sC.progress = 1 := rfl
  have hge : (ratioOf sC).geOne := by
    unfold ratioOf
    rw [hprog, hstep, hseg]
    unfold jsMinDivOne
    rw [if_neg one_ne_zero]
    show (1 : ℝ) ≤ min ((1 + 0.00001) / 1) 1
    rw [div_one, min_eq_right (by norm_num)]
  have hcross : (updateDronePosition sC).nextWaypointIndex =
      sC.waypoints.length := by
    rw [updateDronePosition_of_cross (by decide) hge]
    rfl
  exact c10_completion_tick sC rfl (by decide) rfl hcross

theorem stepOf_pos {s : SimulationState} (h : 0 < s.speed) :
    0 < stepOf s := by
  unfold stepOf
  apply div_pos (mul_pos h (by norm_num)) (by norm_num)

/-- Once the accumulated progress is positive and covers the segment
distance, the tick crosses: the finite ratio reaches `1`, and a zero
distance gives the `+Infinity`-capped ratio `1`. -/
theorem geOne_of_covered {q d : ℝ} (hd : 0 ≤ d) (hq : 0 < q) (hle : d ≤ q) :
    (jsMinDivOne q d).geOne := by
  unfold jsMinDivOne
  by_cases hz : d = 0
  · rw [if_pos hz, if_pos hq]
    show (1 : ℝ) ≤ 1
    exact le_refl 1
  · rw [if_neg hz]
    show 1 ≤ min (q / d) 1
    have hdpos : 0 < d := hd.lt_of_ne (Ne.symm hz)
    rw [le_min_iff]
    exact ⟨(le_div_iff₀ hdpos).mpr (by rw [one_mul]; exact hle), le_refl 1⟩

/-- At positive speed, a session mid-segment crosses that segment within
`j + 1` ticks whenever `j + 1` steps cover its distance: some iterate at most
`j + 1` ticks later has the next index advanced by one and progress reset,
with waypoints and speed untouched. -/
theorem cross_within : ∀ (j : ℕ) (s : SimulationState), 0 < s.speed →
    0 ≤ s.progress → s.nextWaypointIndex < s.waypoints.length →
    segDistOf s ≤ s.progress + (j + 1) * stepOf s →
    ∃ n : ℕ, n ≤ j + 1 ∧
      (updateDronePosition^[n] s).waypoints = s.waypoints ∧
      (updateDronePosition^[n] s).speed = s.speed ∧
      (updateDronePosition^[n] s).nextWaypointIndex =
        s.nextWaypointIndex + 1 ∧
      (updateDronePosition^[n] s).progress = 0 := by
  intro j
  induction j with
  | zero =>
      intro s hsp hpr hlt hd
      have hq : 0 < s.progress + stepOf s :=
        add_pos_of_nonneg_of_pos hpr (stepOf_pos hsp)
      have hle : segDistOf s ≤ s.progress + stepOf s := by
        have : ((0 : ℕ) + 1 : ℝ) * stepOf s = stepOf s := by norm_num
        calc segDistOf s ≤ s.progress + ((0 : ℕ) + 1 : ℝ) * stepOf s := hd
          _ = s.progress + stepOf s := by rw [this]
      have hge : (ratioOf s).geOne :=
        geOne_of_covered (segDistOf_nonneg s) hq hle
      refine ⟨1, le_refl 1, ?_⟩
      rw [Function.iterate_one, updateDronePosition_of_cross hlt hge]
      exact ⟨rfl, rfl, rfl, rfl⟩
  | succ j ih =>
      intro s hsp hpr hlt hd
      by_cases hge : (ratioOf s).geOne
      · refine ⟨1, by omega, ?_⟩
        rw [Function.iterate_one, updateDronePosition_of_cross hlt hge]
        exact ⟨rfl, rfl, rfl, rfl⟩
      · have hupd := updateDronePosition_of_mid hlt hge
        have hw : (updateDronePosition s).waypoints = s.waypoints := by
          rw [hupd]
        have hc : (updateDronePosition s).currentWaypointIndex =
            s.currentWaypointIndex := by rw [hupd]
        have hn : (updateDronePosition s).nextWaypointIndex =
            s.nextWaypointIndex := by rw [hupd]
        have hsp2 : 0 < (updateDronePosition s).speed := by
          rw [updateDronePosition_speed]
          exact hsp
        have hpr2 : 0 ≤ (updateDronePosition s).progress := by
          rw [hupd]
          show 0 ≤ s.progress + stepOf s
          exact le_of_lt (add_pos_of_nonneg_of_pos hpr (stepOf_pos hsp))
        have hlt2 : (updateDronePosition s).nextWaypointIndex <
            (updateDronePosition s).waypoints.length := by
          rw [hn, hw]
          exact hlt
        have hd2 : segDistOf (updateDronePosition s) ≤
            (updateDronePosition s).progress +
              (j + 1) * stepOf (updateDronePosition s) := by
          rw [segDistOf_congr hw hc hn]
          have hst : stepOf (updateDronePosition s) = stepOf s := by
            unfold stepOf
            rw [updateDronePosition_speed]
          rw [hst]
          have hpr3 : (updateDronePosition s).progress =
              s.progress + stepOf s := by rw [hupd]
          rw [hpr3]
          calc segDistOf s ≤ s.progress + (j + 1 + 1 : ℝ) * stepOf s := by
                have : ((j : ℕ) + 1 + 1 : ℝ) = ((j + 1 : ℕ) + 1 : ℝ) := by
                  push_cast
                  ring
                rw [this]
                exact_mod_cast hd
            _ = s.progress + stepOf s + (j + 1 : ℝ) * stepOf s := by ring
        obtain ⟨n, hle, hw2, hsp3, hn2, hpr4⟩ :=
          ih (updateDronePosition s) hsp2 hpr2 hlt2 hd2
        refine ⟨n + 1, by omega, ?_, ?_, ?_, ?_⟩
        · rw [Function.iterate_succ_apply, hw2, hw]
        · rw [Function.iterate_succ_apply, hsp3, updateDronePosition_speed]
        · rw [Function.iterate_succ_apply, hn2, hn]
        · rw [Function.iterate_succ_apply, hpr4]

/-- At positive speed and non-negative progress, the simulation completes
within finitely many ticks; the bound parameter `k` dominates the number of
remaining waypoints. -/
theorem complete_within : ∀ (k : ℕ) (s : SimulationState),
    s.waypoints.length - s.nextWaypointIndex ≤ k → 0 < s.speed →
    0 ≤ s.progress →
    ∃ n : ℕ, (updateDronePosition^[n] s).isComplete = true := by
  intro k
  induction k with
  | zero =>
      intro s hk hsp hpr
      refine ⟨1, ?_⟩
      rw [Function.iterate_one, updateDronePosition_of_done (by omega)]
  | succ k ih =>
      intro s hk hsp hpr
      by_cases hlt : s.nextWaypointIndex < s.waypoints.length
      · obtain ⟨j, hj⟩ : ∃ j : ℕ,
            segDistOf s ≤ s.progress + (j + 1) * stepOf s := by
          have hstep : 0 < stepOf s := stepOf_pos hsp
          obtain ⟨j, hj⟩ :=
            exists_nat_ge ((segDistOf s - s.progress) / stepOf s)
          refine ⟨j, ?_⟩
          have hcov : segDistOf s - s.progress ≤ j * stepOf s :=
            (div_le_iff₀ hstep).mp hj
          nlinarith [hstep]
        obtain ⟨n, hle, hw, hspd, hnext, hprog⟩ :=
          cross_within j s hsp hpr hlt hj
        obtain ⟨m, hm⟩ : ∃ m, (updateDronePosition^[m]
            (updateDronePosition^[n] s)).isComplete = true := by
          apply ih
          · rw [hw, hnext]
            omega
          · rw [hspd]
            exact hsp
          · rw [hprog]
        refine ⟨m + n, ?_⟩
        rw [Function.iterate_add_apply]
        exact hm
      · refine ⟨1, ?_⟩
        rw [Function.iterate_one,
          updateDronePosition_of_done (not_lt.mp hlt)]

/-- C5: for every route of length ≥ 2 and every start speed > 0, repeated
advances from the fresh session eventually set `isComplete = true`: the
simulation never stalls short of completion. -/
theorem c5_eventually_complete (waypoints : List Coordinate) (v : ℝ)
    (h2 : 2 ≤ waypoints.length) (hv : 0 < v) :
    ∃ n : ℕ, (updateDronePosition^[n]
      (initialSimulationState waypoints (some v))).isComplete = true := by
  apply complete_within waypoints.length
  · show waypoints.length - 1 ≤ waypoints.length
    omega
  · show 0 < (if v = 0 then 1 else v)
    rw [if_neg (ne_of_gt hv)]
    exact hv
  · show (0 : ℝ) ≤ 0
    exact le_refl 0

/-- Witness for C5: the two-waypoint route at speed `1`. -/
theorem c5_eventually_complete_witness :
    ∃ n : ℕ, (updateDronePosition^[n]
      (initialSimulationState [⟨0, 0⟩, ⟨0, 1⟩] (some 1))).isComplete = true :=
  c5_eventually_complete [⟨0, 0⟩, ⟨0, 1⟩] 1 (by decide) (by norm_num)

end DroneSim
